import Mathlib

/-!
Verification of the `cubism-core` wrapper layer (Rust) against its
natural-language specification.

The development shallowly embeds the wrapper's data model and operations.
The foreign evaluation engine is opaque in the source (a C library reached
through raw pointers), so it is modelled as a record of functions supplied
as a parameter; raw C arrays (`pointer + count`, read with
`from_raw_parts`) are modelled as `Option (Nat → α)` — `none` is a null
pointer, and reading `len` elements materialises `(List.range len).map f`,
which mirrors the C guarantee that a non-null pointer read with a count
always yields exactly that many (possibly garbage) elements.

`f32` values are only ever moved, stored and compared for nothing in the
code paths under study (the commented-out clamping in
`set_parameter_value_index_unchecked` is not compiled), so they are
modelled as exact rationals.

Rust `Result<T>` is `Except Error T`; a Rust panic (`expect`,
`copy_from_slice` length mismatch) is modelled as `Option.none` in the
few places it can occur (`Model::clone`).
-/

/-- `Error` from src/error.rs, restricted to the constructors that the
embedded operations can produce.  `model.rs` spells the count error
`InvalidDataCount`; payloads keep the source's static strings. -/
inductive Error where
  | InvalidMocVersion (v : Nat)
  | MocDataTooLarge
  | InvalidMocData
  | InitializeModelError
  | InvalidDataCount (s : String)
  | GetDataError (s : String)
  | InvalidFlags (kind : String) (bits : Nat)
deriving DecidableEq

/-- `moc3` file format version (src/version.rs, `MocVersion`). -/
inductive MocVersion where
  | Version30
  | Version33
  | Version40
  | VersionUnknown
deriving DecidableEq

/-- Position of a variant in the declaration order; the Rust code compares
`MocVersion` values with the derived `Ord`, which orders variants by
declaration order. -/
def MocVersion.toIdx : MocVersion → Nat
  | .Version30 => 0
  | .Version33 => 1
  | .Version40 => 2
  | .VersionUnknown => 3

/-- Strict comparison of the derived Rust `Ord` on `MocVersion`. -/
def MocVersion.ltb (a b : MocVersion) : Bool :=
  a.toIdx < b.toIdx

/-- `MocVersion::new` (src/version.rs): classify a raw `csmMocVersion`
tag code. -/
def MocVersion.new (version : Nat) : MocVersion :=
  match version with
  | 1 => .Version30
  | 2 => .Version33
  | 3 => .Version40
  | _ => .VersionUnknown

/-- `c_uint::MAX`, the 32-bit unsigned bound checked by `Moc::new`. -/
def UINT32_MAX : Nat := 4294967295

/-- The engine entry points that `Moc::new` reaches
(`csmGetMocVersion`, `csmGetLatestMocVersion`, `csmReviveMocInPlace`).
Byte buffers are `List Nat`; `reviveMocInPlace` returns `none` for a null
result and otherwise the revived (in-place fixed-up) buffer contents. -/
structure MocEngine where
  getMocVersion : List Nat → Nat
  latestMocVersion : Nat
  reviveMocInPlace : List Nat → Option (List Nat)

/-- `Moc` (src/moc.rs): a shared handle to the revived asset buffer. -/
structure Moc where
  moc : List Nat
deriving DecidableEq

/-- `Moc::new` (src/moc.rs): size gate, version gate, then in-place
revival; mirrors the source's check order exactly. -/
def Moc.new (eng : MocEngine) (bytes : List Nat) : Except Error Moc :=
  if bytes.length > UINT32_MAX then
    .error .MocDataTooLarge
  else
    let version := eng.getMocVersion bytes
    if MocVersion.ltb (MocVersion.new eng.latestMocVersion) (MocVersion.new version) then
      .error (.InvalidMocVersion version)
    else
      match eng.reviveMocInPlace bytes with
      | none => .error .InvalidMocData
      | some revived => .ok ⟨revived⟩

/-- `f32` model values: only copied and stored by the embedded code paths,
so modelled as exact rationals. -/
abbrev F32 := Rat

/-- `Vector2` (src/model.rs). -/
structure Vector2 where
  x : F32
  y : F32
deriving DecidableEq

/-- A raw C array: `none` is a null pointer, `some f` is memory from which
any number of elements can be read. -/
abbrev Mem (α : Type) := Option (Nat → α)

/-- `get_slice` (src/model.rs): null check, then `from_raw_parts(ptr, len)`,
which always yields exactly `len` elements. -/
def readSlice (p : Mem α) (len : Nat) : Option (List α) :=
  p.map (fun f => (List.range len).map f)

/-- `Option` collection, as Rust's `collect::<Option<Vec<_>>>`. -/
def collectOption : List (Option α) → Option (List α)
  | [] => some []
  | none :: _ => none
  | some a :: rest =>
    match collectOption rest with
    | some l => some (a :: l)
    | none => none

/-- `Result` collection in iteration order, as Rust's
`collect::<Result<Vec<_>, _>>` (first error wins). -/
def exceptMapM (f : α → Except Error β) : List α → Except Error (List β)
  | [] => .ok []
  | a :: rest =>
    match f a with
    | .error e => .error e
    | .ok b =>
      match exceptMapM f rest with
      | .error e => .error e
      | .ok bs => .ok (b :: bs)

/-- `Option::ok_or` into `Except`. -/
def okOr (o : Option α) (e : Error) : Except Error α :=
  match o with
  | some a => .ok a
  | none => .error e

instance [DecidableEq α] : DecidableEq (Except Error α) := fun x y =>
  match x, y with
  | .error e, .error f =>
    if h : e = f then .isTrue (by rw [h]) else .isFalse (fun hx => h (Except.error.inj hx))
  | .error _, .ok _ => .isFalse (fun hx => Except.noConfusion hx)
  | .ok _, .error _ => .isFalse (fun hx => Except.noConfusion hx)
  | .ok a, .ok b =>
    if h : a = b then .isTrue (by rw [h]) else .isFalse (fun hx => h (Except.ok.inj hx))

/-- The `check_count` closure in `StaticData::new`: a negative engine
count is invalid. -/
def check_count (i : Int) : Option Nat :=
  if i < 0 then none else some i.toNat

/-- The `get_ids` closure in `StaticData::new`: null outer pointer fails,
a null element pointer fails the whole read; `to_string_lossy` itself
never fails, so an element is `none` exactly for a null C-string
pointer. -/
def get_ids (p : Mem (Option String)) (len : Nat) : Option (List String) :=
  match p with
  | none => none
  | some f => collectOption ((List.range len).map f)

/-- `HashMap::insert` on an association-list representation: replaces the
value of an existing key in place, otherwise appends. -/
def insertReplace (m : List (String × Nat)) (k : String) (v : Nat) : List (String × Nat) :=
  match m with
  | [] => [(k, v)]
  | (q, w) :: rest =>
    if q = k then (k, v) :: rest else (q, w) :: insertReplace rest k v

/-- `HashMap::get` on the association-list representation. -/
def lookupAssoc (m : List (String × Nat)) (k : String) : Option Nat :=
  match m with
  | [] => none
  | (q, w) :: rest => if q = k then some w else lookupAssoc rest k

/-- Tail of the `get_ids_map` closure: insert `(ids[start + j], start + j)`
for each `j` in order, as `HashMap::from_iter` does (each pair goes
through `insert`). -/
def get_ids_map_aux (ids : List String) (start : Nat) (acc : List (String × Nat)) : List (String × Nat) :=
  match ids with
  | [] => acc
  | s :: rest => get_ids_map_aux rest (start + 1) (insertReplace acc s start)

/-- The `get_ids_map` closure in `StaticData::new`:
`ids.iter().enumerate().map(|(i, s)| (s.clone(), i)).collect()`. -/
def get_ids_map (ids : List String) : List (String × Nat) :=
  get_ids_map_aux ids 0 []

/-- Index of the last occurrence of `q` in `ids` (specification device for
the `HashMap` collection semantics). -/
def lastIdxOf (ids : List String) (q : String) : Option Nat :=
  match ids with
  | [] => none
  | s :: rest =>
    match lastIdxOf rest q with
    | some j => some (j + 1)
    | none => if s = q then some 0 else none

/-- `PartParent` (src/model.rs). -/
inductive PartParent where
  | Root
  | Parent (i : Nat)
deriving DecidableEq

/-- `PartParent::new` (src/model.rs): raw values below `-1` are rejected,
`-1` is the root marker, any other value is a parent index. -/
def PartParent.new (index : Int) : Except Error PartParent :=
  if index < -1 then .error (.InvalidDataCount "part parent")
  else if index = -1 then .ok .Root
  else .ok (.Parent index.toNat)

/-- `ConstantFlags::all().bits()`: the four constant-flag bits the header
defines (`csmBlendAdditive | csmBlendMultiplicative | csmIsDoubleSided |
csmIsInvertedMask` = 1 + 2 + 4 + 8). -/
def ConstantFlags.allBits : Nat := 15

/-- `ConstantFlags::from_bits` (bitflags): fails when a bit outside the
defined set is present in the byte. -/
def ConstantFlags.from_bits (b : Nat) : Option Nat :=
  if b &&& (255 ^^^ ConstantFlags.allBits) = 0 then some b else none

/-- `DynamicFlags::all().bits()`: the six dynamic-flag bits the header
defines (1 + 2 + 4 + 8 + 16 + 32). -/
def DynamicFlags.allBits : Nat := 63

/-- `DynamicFlags::from_bits` (bitflags). -/
def DynamicFlags.from_bits (b : Nat) : Option Nat :=
  if b &&& (255 ^^^ DynamicFlags.allBits) = 0 then some b else none

/-- The engine's view of an initialized model instance buffer: the raw
counts and arrays the per-domain accessor functions
(`csmGetParameterCount`, `csmGetParameterIds`, ...) return.  Counts are
signed 32-bit in the C API, so `Int`; id arrays hold possibly-null C
strings; two-level (count-then-pointer) arrays hold possibly-null inner
pointers. -/
structure RawModel where
  parameterCount : Int
  partCount : Int
  drawableCount : Int
  parameterIds : Mem (Option String)
  parameterMinValues : Mem F32
  parameterMaxValues : Mem F32
  parameterDefaultValues : Mem F32
  partIds : Mem (Option String)
  partParentIndices : Mem Int
  drawableIds : Mem (Option String)
  drawableConstantFlags : Mem Nat
  drawableTextureIndices : Mem Int
  drawableMaskCounts : Mem Int
  drawableMasks : Mem (Option (Nat → Int))
  drawableVertexCounts : Mem Int
  drawableVertexUvs : Mem (Option (Nat → Vector2))
  drawableIndexCounts : Mem Int
  drawableIndices : Mem (Option (Nat → Nat))
  parameterValues : Mem F32
  partOpacities : Mem F32
  drawableDynamicFlags : Mem Nat
  drawableDrawOrders : Mem Int
  drawableRenderOrders : Mem Int
  drawableOpacities : Mem F32
  drawableVertexPositions : Mem (Option (Nat → Vector2))

/-- One element of the drawable-masks extraction in `StaticData::new`:
negative count or null inner pointer fails, otherwise read `count`
elements. -/
def readMask (cp : Int × Option (Nat → Int)) : Except Error (List Int) :=
  if cp.1 < 0 then .error (.InvalidDataCount "drawable mask")
  else
    match cp.2 with
    | none => .error (.GetDataError "drawable masks because null pointer")
    | some g => .ok ((List.range cp.1.toNat).map g)

/-- One element of the vertex-uv extraction in `StaticData::new`: the
count was already validated (`drawable_vertex_counts`), only the inner
pointer is checked. -/
def readUvs (cp : Nat × Option (Nat → Vector2)) : Except Error (List Vector2) :=
  match cp.2 with
  | none => .error (.GetDataError "drawable vertex uvs because null pointer")
  | some g => .ok ((List.range cp.1).map g)

/-- One element of the triangle-index extraction in `StaticData::new`:
the declared count must be non-negative and a multiple of 3, and the
inner pointer non-null. -/
def readIndexList (cp : Int × Option (Nat → Nat)) : Except Error (List Nat) :=
  if cp.1 < 0 ∨ cp.1 % 3 ≠ 0 then .error (.InvalidDataCount "drawable indices")
  else
    match cp.2 with
    | none => .error (.GetDataError "drawable indices because null pointer")
    | some g => .ok ((List.range cp.1.toNat).map g)

/-- One element of the vertex-position read in
`Model::drawable_vertex_positions`. -/
def readVertexPositions (cp : Nat × Option (Nat → Vector2)) : Except Error (List Vector2) :=
  match cp.2 with
  | none => .error (.GetDataError "drawable vertex positions because null pointer")
  | some g => .ok ((List.range cp.1).map g)

/-- `StaticData` (src/model.rs): the validated immutable facet data.
Constant flags keep their validated byte value. -/
structure StaticData where
  parameterIds : List String
  parameterIdsMap : List (String × Nat)
  parameterMinValues : List F32
  parameterMaxValues : List F32
  parameterDefaultValues : List F32
  partIds : List String
  partIdsMap : List (String × Nat)
  partParentIndices : List PartParent
  drawableIds : List String
  drawableIdsMap : List (String × Nat)
  drawableConstantFlags : List Nat
  drawableTextureIndices : List Int
  drawableMarks : List (List Int)
  drawableVertexCounts : List Nat
  drawableVertexUvs : List (List Vector2)
  drawableIndices : List (List Nat)
deriving DecidableEq

/-- `StaticData::new` (src/model.rs): the facet extractor, with the
source's exact check order and error payloads. -/
def StaticData.new (m : RawModel) : Except Error StaticData := do
  let parameter_count ← okOr (check_count m.parameterCount) (.InvalidDataCount "parameter")
  let part_count ← okOr (check_count m.partCount) (.InvalidDataCount "part")
  let drawable_count ← okOr (check_count m.drawableCount) (.InvalidDataCount "drawable")
  let parameter_ids ← okOr (get_ids m.parameterIds parameter_count) (.GetDataError "parameter ids")
  let parameter_ids_map := get_ids_map parameter_ids
  let parameter_min_values ← okOr (readSlice m.parameterMinValues parameter_count)
    (.GetDataError "parameter min values")
  let parameter_max_values ← okOr (readSlice m.parameterMaxValues parameter_count)
    (.GetDataError "parameter max values")
  let parameter_default_values ← okOr (readSlice m.parameterDefaultValues parameter_count)
    (.GetDataError "parameter default values")
  let part_ids ← okOr (get_ids m.partIds part_count) (.GetDataError "part ids")
  let part_ids_map := get_ids_map part_ids
  let part_parent_raw ← okOr (readSlice m.partParentIndices part_count)
    (.GetDataError "part parent indices")
  let part_parent_indices ← exceptMapM PartParent.new part_parent_raw
  let drawable_ids ← okOr (get_ids m.drawableIds drawable_count) (.GetDataError "drawable ids")
  let drawable_ids_map := get_ids_map drawable_ids
  let constant_flag_bytes ← okOr (readSlice m.drawableConstantFlags drawable_count)
    (.GetDataError "drawable constant flags")
  let drawable_constant_flags ← exceptMapM
    (fun f => okOr (ConstantFlags.from_bits f) (.InvalidFlags "constant" f)) constant_flag_bytes
  let drawable_texture_indices ← okOr (readSlice m.drawableTextureIndices drawable_count)
    (.GetDataError "drawable texture indices")
  let mask_counts ← okOr (readSlice m.drawableMaskCounts drawable_count)
    (.GetDataError "drawable mask counts")
  let mask_ptrs ← okOr (readSlice m.drawableMasks drawable_count) (.GetDataError "drawable masks")
  let drawable_marks ← exceptMapM readMask (mask_counts.zip mask_ptrs)
  let vertex_count_raw ← okOr (readSlice m.drawableVertexCounts drawable_count)
    (.GetDataError "drawable vertex counts")
  let drawable_vertex_counts ← okOr (collectOption (vertex_count_raw.map check_count))
    (.InvalidDataCount "drawable vertex")
  let uv_ptrs ← okOr (readSlice m.drawableVertexUvs drawable_count)
    (.GetDataError "drawable vertex uvs")
  let drawable_vertex_uvs ← exceptMapM readUvs (drawable_vertex_counts.zip uv_ptrs)
  let index_counts ← okOr (readSlice m.drawableIndexCounts drawable_count)
    (.GetDataError "drawable index counts")
  let index_ptrs ← okOr (readSlice m.drawableIndices drawable_count)
    (.GetDataError "drawable indices")
  let drawable_indices ← exceptMapM readIndexList (index_counts.zip index_ptrs)
  .ok {
    parameterIds := parameter_ids
    parameterIdsMap := parameter_ids_map
    parameterMinValues := parameter_min_values
    parameterMaxValues := parameter_max_values
    parameterDefaultValues := parameter_default_values
    partIds := part_ids
    partIdsMap := part_ids_map
    partParentIndices := part_parent_indices
    drawableIds := drawable_ids
    drawableIdsMap := drawable_ids_map
    drawableConstantFlags := drawable_constant_flags
    drawableTextureIndices := drawable_texture_indices
    drawableMarks := drawable_marks
    drawableVertexCounts := drawable_vertex_counts
    drawableVertexUvs := drawable_vertex_uvs
    drawableIndices := drawable_indices }

/-- `MutableData` (src/model.rs): the caller-mutable values, materialised
as the owned view of the memory the two saved pointers reach. -/
structure MutableData where
  parameterValues : List F32
  partOpacities : List F32
deriving DecidableEq

/-- `MutableData::new` (src/model.rs): null checks on the two engine
pointers, read at the already-extracted counts. -/
def MutableData.new (m : RawModel) (parameter_count part_count : Nat) :
    Except Error MutableData := do
  let pv ← okOr (readSlice m.parameterValues parameter_count) (.GetDataError "parameter values")
  let po ← okOr (readSlice m.partOpacities part_count) (.GetDataError "part opacities")
  .ok ⟨pv, po⟩

/-- The engine entry points `Model` reaches for one fixed compiled asset:
`csmGetSizeofModel`, `csmInitializeModelInPlace` (given the zero-filled
buffer size; `none` is a null result), and the evaluate pair
`csmResetDrawableDynamicFlags` / `csmUpdateModel`, which transform the
buffer.  `updateModel` receives the current parameter values and part
opacities (it reads them from the same buffer). -/
structure ModelEngine where
  sizeofModel : Nat
  initializeModelInPlace : Nat → Option RawModel
  resetDrawableDynamicFlags : RawModel → RawModel
  updateModel : List F32 → List F32 → RawModel → RawModel

/-- `init_model` (src/model.rs): asks the engine for the buffer size and
initializes in place; the reported size is passed through without any
zero check. -/
def init_model (eng : ModelEngine) : Except Error RawModel :=
  okOr (eng.initializeModelInPlace eng.sizeofModel) .InitializeModelError

/-- `Model` (src/model.rs): the instance buffer (`raw`), the extracted
static facets and the mutable values.  The retained `Moc` handle carries
no behaviour beyond keeping the asset alive, so it is not represented. -/
structure Model where
  raw : RawModel
  staticData : StaticData
  mutData : MutableData

/-- `Model::new` (src/model.rs). -/
def Model.new (eng : ModelEngine) : Except Error Model := do
  let raw ← init_model eng
  let staticData ← StaticData.new raw
  let mutData ← MutableData.new raw staticData.parameterIds.length staticData.partIds.length
  .ok { raw, staticData, mutData }

/-- `Model::parameter_count`. -/
def Model.parameter_count (m : Model) : Nat := m.staticData.parameterIds.length

/-- `Model::part_count`. -/
def Model.part_count (m : Model) : Nat := m.staticData.partIds.length

/-- `Model::drawable_count`. -/
def Model.drawable_count (m : Model) : Nat := m.staticData.drawableIds.length

/-- `Model::get_parameter_id_index`. -/
def Model.get_parameter_id_index (m : Model) (id : String) : Option Nat :=
  lookupAssoc m.staticData.parameterIdsMap id

/-- `Model::get_part_id_index`. -/
def Model.get_part_id_index (m : Model) (id : String) : Option Nat :=
  lookupAssoc m.staticData.partIdsMap id

/-- `Model::get_drawable_id_index`. -/
def Model.get_drawable_id_index (m : Model) (id : String) : Option Nat :=
  lookupAssoc m.staticData.drawableIdsMap id

/-- `Model::parameter_values`. -/
def Model.parameter_values (m : Model) : List F32 := m.mutData.parameterValues

/-- `Model::part_opacities`. -/
def Model.part_opacities (m : Model) : List F32 := m.mutData.partOpacities

/-- `Model::set_parameter_value_index_unchecked` (src/model.rs): a plain
`mem::replace` — the clamping against min/max present in the source only
as commented-out code is not performed.  Out-of-bounds access is
undefined behaviour in the source; here it reads `none` and writes
nothing (`List.set` out of range is the identity), and the theorems show
the in-bounds invariant makes that branch unreachable.  Returns
(previous value, new state). -/
def Model.set_parameter_value_index_unchecked (m : Model) (index : Nat) (value : F32) :
    Option F32 × Model :=
  (m.mutData.parameterValues.get? index,
   { m with mutData := { m.mutData with
       parameterValues := m.mutData.parameterValues.set index value } })

/-- `Model::set_parameter_value` (src/model.rs): look the id up in the
map; unknown id fails with `None` and mutates nothing. -/
def Model.set_parameter_value (m : Model) (id : String) (value : F32) : Option F32 × Model :=
  match m.get_parameter_id_index id with
  | none => (none, m)
  | some index => m.set_parameter_value_index_unchecked index value

/-- `Model::set_part_opacity_index_unchecked` (src/model.rs): plain
`mem::replace`, clamping commented out in the source. -/
def Model.set_part_opacity_index_unchecked (m : Model) (index : Nat) (value : F32) :
    Option F32 × Model :=
  (m.mutData.partOpacities.get? index,
   { m with mutData := { m.mutData with
       partOpacities := m.mutData.partOpacities.set index value } })

/-- `Model::set_part_opacity` (src/model.rs). -/
def Model.set_part_opacity (m : Model) (id : String) (value : F32) : Option F32 × Model :=
  match m.get_part_id_index id with
  | none => (none, m)
  | some index => m.set_part_opacity_index_unchecked index value

/-- `StaticParameter` (src/model.rs). -/
structure StaticParameter where
  index : Nat
  id : String
  min_value : F32
  max_value : F32
  default_value : F32
deriving DecidableEq

/-- `Model::get_static_parameter_unchecked` (src/model.rs); out-of-bounds
reads (undefined behaviour in the source) surface as defaults here and
are shown unreachable from the map. -/
def Model.get_static_parameter_unchecked (m : Model) (index : Nat) : StaticParameter :=
  { index
    id := m.staticData.parameterIds.getD index ""
    min_value := m.staticData.parameterMinValues.getD index 0
    max_value := m.staticData.parameterMaxValues.getD index 0
    default_value := m.staticData.parameterDefaultValues.getD index 0 }

/-- `Model::static_parameter` (src/model.rs). -/
def Model.static_parameter (m : Model) (id : String) : Option StaticParameter :=
  (m.get_parameter_id_index id).map m.get_static_parameter_unchecked

/-- `StaticPart` (src/model.rs). -/
structure StaticPart where
  index : Nat
  id : String
  part_parent_index : PartParent
deriving DecidableEq

/-- `Model::get_static_part_unchecked` (src/model.rs). -/
def Model.get_static_part_unchecked (m : Model) (index : Nat) : StaticPart :=
  { index
    id := m.staticData.partIds.getD index ""
    part_parent_index := m.staticData.partParentIndices.getD index .Root }

/-- `Model::static_part` (src/model.rs). -/
def Model.static_part (m : Model) (id : String) : Option StaticPart :=
  (m.get_part_id_index id).map m.get_static_part_unchecked

/-- `StaticDrawable` (src/model.rs); the constant flag keeps its
validated byte value. -/
structure StaticDrawable where
  index : Nat
  id : String
  constant_flag : Nat
  texture_index : Int
  masks : List Int
  vertex_uvs : List Vector2
  indices : List Nat
deriving DecidableEq

/-- `Model::get_static_drawable_unchecked` (src/model.rs). -/
def Model.get_static_drawable_unchecked (m : Model) (index : Nat) : StaticDrawable :=
  { index
    id := m.staticData.drawableIds.getD index ""
    constant_flag := m.staticData.drawableConstantFlags.getD index 0
    texture_index := m.staticData.drawableTextureIndices.getD index 0
    masks := m.staticData.drawableMarks.getD index []
    vertex_uvs := m.staticData.drawableVertexUvs.getD index []
    indices := m.staticData.drawableIndices.getD index [] }

/-- `Model::static_drawable` (src/model.rs). -/
def Model.static_drawable (m : Model) (id : String) : Option StaticDrawable :=
  (m.get_drawable_id_index id).map m.get_static_drawable_unchecked

/-- `Model::drawable_dynamic_flags` (src/model.rs): re-read and
re-validate the flag bytes on every call. -/
def Model.drawable_dynamic_flags (m : Model) : Except Error (List Nat) := do
  let bytes ← okOr (readSlice m.raw.drawableDynamicFlags m.drawable_count)
    (.GetDataError "drawable dynamic flags")
  exceptMapM (fun f => okOr (DynamicFlags.from_bits f) (.InvalidFlags "dynamic" f)) bytes

/-- `Model::drawable_draw_orders` (src/model.rs). -/
def Model.drawable_draw_orders (m : Model) : Except Error (List Int) :=
  okOr (readSlice m.raw.drawableDrawOrders m.drawable_count)
    (.GetDataError "drawable draw orders")

/-- `Model::drawable_render_orders` (src/model.rs). -/
def Model.drawable_render_orders (m : Model) : Except Error (List Int) :=
  okOr (readSlice m.raw.drawableRenderOrders m.drawable_count)
    (.GetDataError "drawable render orders")

/-- `Model::drawable_opacities` (src/model.rs): a null-pointer check and
a raw read — no range validation of the values. -/
def Model.drawable_opacities (m : Model) : Except Error (List F32) :=
  okOr (readSlice m.raw.drawableOpacities m.drawable_count)
    (.GetDataError "drawable opacities")

/-- `Model::drawable_vertex_positions` (src/model.rs): read through the
engine pointer using the statically validated vertex counts. -/
def Model.drawable_vertex_positions (m : Model) : Except Error (List (List Vector2)) := do
  let ptrs ← okOr (readSlice m.raw.drawableVertexPositions m.drawable_count)
    (.GetDataError "drawable vertex positions")
  exceptMapM readVertexPositions (m.staticData.drawableVertexCounts.zip ptrs)

/-- `DynamicDrawable` (src/model.rs); the dynamic flag keeps its
validated byte value. -/
structure DynamicDrawable where
  index : Nat
  id : String
  dynamic_flag : Nat
  draw_order : Int
  render_order : Int
  opacity : F32
  vertex_positions : List Vector2
deriving DecidableEq

/-- `Model::get_dynamic_drawable_unchecked` (src/model.rs): the dynamic
reads happen in the source's field order, so a flag-validation failure
pre-empts the later reads. -/
def Model.get_dynamic_drawable_unchecked (m : Model) (index : Nat) :
    Except Error DynamicDrawable := do
  let flags ← m.drawable_dynamic_flags
  let draw_orders ← m.drawable_draw_orders
  let render_orders ← m.drawable_render_orders
  let opacities ← m.drawable_opacities
  let vertex_positions ← m.drawable_vertex_positions
  .ok { index
        id := m.staticData.drawableIds.getD index ""
        dynamic_flag := flags.getD index 0
        draw_order := draw_orders.getD index 0
        render_order := render_orders.getD index 0
        opacity := opacities.getD index 0
        vertex_positions := vertex_positions.getD index [] }

/-- `Model::dynamic_drawable` (src/model.rs). -/
def Model.dynamic_drawable (m : Model) (id : String) : Except Error DynamicDrawable :=
  match m.get_drawable_id_index id with
  | none => .error (.InvalidDataCount "drawable dynamic")
  | some index => m.get_dynamic_drawable_unchecked index

/-- `Model::update_model` (src/model.rs): reset the dynamic flags, then
run the engine's update over the buffer. -/
def Model.update_model (eng : ModelEngine) (m : Model) : Model :=
  { m with
    raw := eng.updateModel m.mutData.parameterValues m.mutData.partOpacities
      (eng.resetDrawableDynamicFlags m.raw) }

/-- `<[T]>::copy_from_slice`: copies `src` over `dst`, panicking
(modelled as `none`) when the lengths differ. -/
def copyFromSlice (dst src : List α) : Option (List α) :=
  if dst.length = src.length then some src else none

/-- `Except.toOption` under a local name. -/
def exceptToOption : Except Error α → Option α
  | .ok a => some a
  | .error _ => none

/-- `impl Clone for Model` (src/model.rs): initialize a fresh buffer from
the same asset, reuse the original's already-extracted `StaticData`
(`self.static_data.clone()`), build fresh `MutableData`, then overwrite
the fresh values with the original's current parameter values and part
opacities.  No evaluate pass is run.  The source's `expect` calls and the
`copy_from_slice` length panics are the `none` outcomes. -/
def Model.clone (eng : ModelEngine) (m : Model) : Option Model := do
  let raw ← eng.initializeModelInPlace eng.sizeofModel
  let staticData := m.staticData
  let fresh ← exceptToOption
    (MutableData.new raw staticData.parameterIds.length staticData.partIds.length)
  let pv ← copyFromSlice fresh.parameterValues m.mutData.parameterValues
  let po ← copyFromSlice fresh.partOpacities m.mutData.partOpacities
  some { raw, staticData, mutData := ⟨pv, po⟩ }

/-- Modelled from the spec (section 4.2 `clone_from`), for comparison
with the code's `Model.clone`: "creates a new instance from `other`'s
asset, then copies `other`'s current parameter values and part opacities
into the new instance, then runs one evaluate pass". -/
def Model.cloneSpec (eng : ModelEngine) (m : Model) : Option Model :=
  match Model.new eng with
  | .error _ => none
  | .ok fresh =>
    some (Model.update_model eng
      { fresh with mutData :=
          { parameterValues := m.mutData.parameterValues
            partOpacities := m.mutData.partOpacities } })

/-- Constructor test for `Except` results whose payload carries
functions (and so has no decidable equality). -/
def exceptIsOk : Except Error α → Bool
  | .ok _ => true
  | .error _ => false

/-- Observe the decidable part of a `Model::new` result. -/
def modelStatic : Except Error Model → Option StaticData
  | .ok m => some m.staticData
  | .error _ => none

/-- Observe a cloned model: its static data, mutable values and the
drawable-opacity read of its buffer — the facets a clone exposes. -/
def cloneObs : Option Model → Option (StaticData × MutableData × Except Error (List F32))
  | none => none
  | some m => some (m.staticData, m.mutData, m.drawable_opacities)

/-- Soundness of an identifier→index map with respect to its id list:
every stored pair points strictly below the id count, at an id equal to
the key. -/
def MapSound (mp : List (String × Nat)) (ids : List String) : Prop :=
  ∀ p ∈ mp, p.2 < ids.length ∧ ids.get? p.2 = some p.1

instance (mp : List (String × Nat)) (ids : List String) : Decidable (MapSound mp ids) :=
  inferInstanceAs (Decidable (∀ p ∈ mp, _ ∧ _))

/-- The parallel-array well-formedness a successfully constructed `Model`
enjoys: sound maps in all three domains, and every domain array exactly
as long as its id list, so an index produced by a map lookup is in
bounds for every fetch the identifier-based accessors perform. -/
def Model.Invariant (m : Model) : Prop :=
  MapSound m.staticData.parameterIdsMap m.staticData.parameterIds ∧
  MapSound m.staticData.partIdsMap m.staticData.partIds ∧
  MapSound m.staticData.drawableIdsMap m.staticData.drawableIds ∧
  m.staticData.parameterMinValues.length = m.parameter_count ∧
  m.staticData.parameterMaxValues.length = m.parameter_count ∧
  m.staticData.parameterDefaultValues.length = m.parameter_count ∧
  m.mutData.parameterValues.length = m.parameter_count ∧
  m.staticData.partParentIndices.length = m.part_count ∧
  m.mutData.partOpacities.length = m.part_count ∧
  m.staticData.drawableConstantFlags.length = m.drawable_count ∧
  m.staticData.drawableTextureIndices.length = m.drawable_count ∧
  m.staticData.drawableMarks.length = m.drawable_count ∧
  m.staticData.drawableVertexCounts.length = m.drawable_count ∧
  m.staticData.drawableVertexUvs.length = m.drawable_count ∧
  m.staticData.drawableIndices.length = m.drawable_count

instance (m : Model) : Decidable m.Invariant :=
  inferInstanceAs (Decidable (_ ∧ _))

/-- A raw model with all counts zero and every pointer non-null: the
smallest view an engine can expose that extraction accepts. -/
def rawBase : RawModel :=
  { parameterCount := 0
    partCount := 0
    drawableCount := 0
    parameterIds := some (fun _ => some "")
    parameterMinValues := some (fun _ => 0)
    parameterMaxValues := some (fun _ => 0)
    parameterDefaultValues := some (fun _ => 0)
    partIds := some (fun _ => some "")
    partParentIndices := some (fun _ => -1)
    drawableIds := some (fun _ => some "")
    drawableConstantFlags := some (fun _ => 0)
    drawableTextureIndices := some (fun _ => 0)
    drawableMaskCounts := some (fun _ => 0)
    drawableMasks := some (fun _ => some (fun _ => 0))
    drawableVertexCounts := some (fun _ => 0)
    drawableVertexUvs := some (fun _ => some (fun _ => ⟨0, 0⟩))
    drawableIndexCounts := some (fun _ => 0)
    drawableIndices := some (fun _ => some (fun _ => 0))
    parameterValues := some (fun _ => 0)
    partOpacities := some (fun _ => 0)
    drawableDynamicFlags := some (fun _ => 0)
    drawableDrawOrders := some (fun _ => 0)
    drawableRenderOrders := some (fun _ => 0)
    drawableOpacities := some (fun _ => 0)
    drawableVertexPositions := some (fun _ => some (fun _ => ⟨0, 0⟩)) }

/-- An engine that reports buffer size 64, always initializes to `r`, and
whose evaluate pass leaves the buffer unchanged. -/
def engOf (r : RawModel) : ModelEngine :=
  { sizeofModel := 64
    initializeModelInPlace := fun _ => some r
    resetDrawableDynamicFlags := fun r => r
    updateModel := fun _ _ r => r }

/-- `StaticData` with every facet empty. -/
def sdEmpty : StaticData :=
  ⟨[], [], [], [], [], [], [], [], [], [], [], [], [], [], [], []⟩

/-- Engine reporting instance-buffer size zero yet initializing
successfully (C2). -/
def engZeroSize : ModelEngine :=
  { engOf rawBase with sizeofModel := 0 }

/-- Engine whose in-place initialize reports failure (null). -/
def engInitFail : ModelEngine :=
  { sizeofModel := 64
    initializeModelInPlace := fun _ => none
    resetDrawableDynamicFlags := fun r => r
    updateModel := fun _ _ r => r }

/-- Raw model with one part whose raw parent index is `5` — far beyond
the part count of 1 (C4). -/
def raw4 : RawModel :=
  { rawBase with
    partCount := 1
    partIds := some (fun _ => some "p")
    partParentIndices := some (fun _ => 5) }

/-- Engine for `raw4`. -/
def eng4 : ModelEngine := engOf raw4

/-- The static data `raw4` extracts to. -/
def sd4 : StaticData :=
  { sdEmpty with
    partIds := ["p"]
    partIdsMap := [("p", 0)]
    partParentIndices := [.Parent 5] }

/-- Raw model with one drawable whose declared triangle-index count is
`4` (C9). -/
def raw9 : RawModel :=
  { rawBase with
    drawableCount := 1
    drawableIds := some (fun _ => some "d")
    drawableIndexCounts := some (fun _ => 4) }

/-- Engine for `raw9`. -/
def eng9 : ModelEngine := engOf raw9

/-- Raw model with one drawable, all dynamic values zero (C1). -/
def rawC1 : RawModel :=
  { rawBase with
    drawableCount := 1
    drawableIds := some (fun _ => some "d") }

/-- Static data of a model with exactly one drawable `"d"` and nothing
else. -/
def sdD1 : StaticData :=
  { sdEmpty with
    drawableIds := ["d"]
    drawableIdsMap := [("d", 0)]
    drawableConstantFlags := [0]
    drawableTextureIndices := [0]
    drawableMarks := [[]]
    drawableVertexCounts := [0]
    drawableVertexUvs := [[]]
    drawableIndices := [[]] }

/-- Engine whose evaluate pass sets every drawable opacity to 1 while the
freshly initialized buffer has opacity 0 (C1). -/
def engC1 : ModelEngine :=
  { sizeofModel := 64
    initializeModelInPlace := fun _ => some rawC1
    resetDrawableDynamicFlags := fun r => r
    updateModel := fun _ _ r => { r with drawableOpacities := some (fun _ => 1) } }

/-- A model over `rawC1`, as `Model::new engC1` builds it (C1). -/
def mC1 : Model :=
  { raw := rawC1, staticData := sdD1, mutData := ⟨[], []⟩ }

/-- Static data with one parameter `"a"` over range `[0, 1]` (C7). -/
def sdP1 : StaticData :=
  { sdEmpty with
    parameterIds := ["a"]
    parameterIdsMap := [("a", 0)]
    parameterMinValues := [0]
    parameterMaxValues := [1]
    parameterDefaultValues := [0] }

/-- A well-formed model with the single parameter `"a"` currently at
`1/2` (C7 witness). -/
def mW7 : Model :=
  { raw := rawBase, staticData := sdP1, mutData := ⟨[1/2], []⟩ }

/-- The four boundary opacity values of the claim:
`0 - 1e-4`, `1 + 1e-4`, `0 - 2e-4`, `1 + 2e-4` as exact rationals. -/
def opacityProbe : List F32 :=
  [0 - 1/10000, 1 + 1/10000, 0 - 2/10000, 1 + 2/10000]

/-- Static data with four drawables (C8). -/
def sdD4 : StaticData :=
  { sdEmpty with
    drawableIds := ["d0", "d1", "d2", "d3"]
    drawableIdsMap := [("d0", 0), ("d1", 1), ("d2", 2), ("d3", 3)]
    drawableConstantFlags := [0, 0, 0, 0]
    drawableTextureIndices := [0, 0, 0, 0]
    drawableMarks := [[], [], [], []]
    drawableVertexCounts := [0, 0, 0, 0]
    drawableVertexUvs := [[], [], [], []]
    drawableIndices := [[], [], [], []] }

/-- A model whose engine exposes the four probe opacities (C8). -/
def mC8 : Model :=
  { raw := { rawBase with
      drawableCount := 4
      drawableIds := some (fun n => some (["d0", "d1", "d2", "d3"].getD n ""))
      drawableOpacities := some (fun n => opacityProbe.getD n 0) }
    staticData := sdD4
    mutData := ⟨[], []⟩ }

/-- The same model with a null opacity pointer (C8 amended witness). -/
def mC8null : Model :=
  { mC8 with raw := { mC8.raw with drawableOpacities := none } }

/-- Raw model with one parameter `"a"`, one part `"p"` and one drawable
`"d"` (C10 witness). -/
def rawW10 : RawModel :=
  { rawBase with
    parameterCount := 1
    parameterIds := some (fun _ => some "a")
    parameterMaxValues := some (fun _ => 1)
    partCount := 1
    partIds := some (fun _ => some "p")
    drawableCount := 1
    drawableIds := some (fun _ => some "d") }

/-- Engine for `rawW10`. -/
def engW10 : ModelEngine := engOf rawW10

/-- Witness engine for the `Moc` creation cascade (C5): every version
tag known and supported, revival succeeds in place. -/
def mocEngW : MocEngine :=
  { getMocVersion := fun _ => 3
    latestMocVersion := 3
    reviveMocInPlace := fun b => some b }

/-- Witness engine reporting an unknown format tag (C6): tag code 9 is
outside {1, 2, 3}. -/
def mocEngU : MocEngine :=
  { getMocVersion := fun _ => 9
    latestMocVersion := 3
    reviveMocInPlace := fun b => some b }

/-- The static data `rawW10` extracts to. -/
def sdW10 : StaticData :=
  { sdEmpty with
    parameterIds := ["a"]
    parameterIdsMap := [("a", 0)]
    parameterMinValues := [0]
    parameterMaxValues := [1]
    parameterDefaultValues := [0]
    partIds := ["p"]
    partIdsMap := [("p", 0)]
    partParentIndices := [.Root]
    drawableIds := ["d"]
    drawableIdsMap := [("d", 0)]
    drawableConstantFlags := [0]
    drawableTextureIndices := [0]
    drawableMarks := [[]]
    drawableVertexCounts := [0]
    drawableVertexUvs := [[]]
    drawableIndices := [[]] }

/-- The model `Model::new engW10` builds. -/
def mW10 : Model :=
  { raw := rawW10, staticData := sdW10, mutData := ⟨[0], [0]⟩ }

theorem okOr_eq_ok {o : Option α} {e : Error} {a : α} :
    okOr o e = .ok a ↔ o = some a := by
  cases o <;> simp [okOr]

theorem exceptBind_ok {x : Except Error α} {f : α → Except Error β} {b : β}
    (h : (x >>= f) = .ok b) : ∃ a, x = .ok a ∧ f a = .ok b := by
  cases x with
  | error e => simp [Bind.bind, Except.bind] at h
  | ok a => exact ⟨a, rfl, h⟩

theorem readSlice_some_inv {p : Mem α} {n : Nat} {l : List α}
    (h : readSlice p n = some l) : ∃ f, p = some f ∧ l = (List.range n).map f := by
  cases p with
  | none => simp [readSlice] at h
  | some f => exact ⟨f, rfl, by simpa [readSlice] using h.symm⟩

theorem readSlice_length {p : Mem α} {n : Nat} {l : List α}
    (h : readSlice p n = some l) : l.length = n := by
  obtain ⟨f, -, rfl⟩ := readSlice_some_inv h
  simp

theorem collectOption_length {l : List (Option α)} {r : List α}
    (h : collectOption l = some r) : r.length = l.length := by
  induction l generalizing r with
  | nil =>
    rw [collectOption] at h
    cases h
    rfl
  | cons o rest ih =>
    cases o with
    | none => rw [collectOption] at h; exact absurd h (by simp)
    | some a =>
      rw [collectOption] at h
      cases hr : collectOption rest with
      | none => rw [hr] at h; exact absurd h (by simp)
      | some rs =>
        rw [hr] at h
        cases h
        simp [ih hr]

theorem get_ids_length {p : Mem (Option String)} {n : Nat} {ids : List String}
    (h : get_ids p n = some ids) : ids.length = n := by
  cases p with
  | none => simp [get_ids] at h
  | some f =>
    have := collectOption_length (l := (List.range n).map f) (by simpa [get_ids] using h)
    simpa using this

theorem exceptMapM_length {f : α → Except Error β} {l : List α} {out : List β}
    (h : exceptMapM f l = .ok out) : out.length = l.length := by
  induction l generalizing out with
  | nil =>
    rw [exceptMapM] at h
    cases h
    rfl
  | cons a rest ih =>
    rw [exceptMapM] at h
    cases ha : f a with
    | error e => rw [ha] at h; exact absurd h (by simp)
    | ok b =>
      rw [ha] at h
      cases hr : exceptMapM f rest with
      | error e => rw [hr] at h; exact absurd h (by simp)
      | ok bs =>
        rw [hr] at h
        cases h
        simp [ih hr]

theorem exceptMapM_mem_ok {f : α → Except Error β} {l : List α} {out : List β}
    (h : exceptMapM f l = .ok out) : ∀ b ∈ out, ∃ a ∈ l, f a = .ok b := by
  induction l generalizing out with
  | nil =>
    rw [exceptMapM] at h
    cases h
    simp
  | cons a rest ih =>
    rw [exceptMapM] at h
    cases ha : f a with
    | error e => rw [ha] at h; exact absurd h (by simp)
    | ok b =>
      rw [ha] at h
      cases hr : exceptMapM f rest with
      | error e => rw [hr] at h; exact absurd h (by simp)
      | ok bs =>
        rw [hr] at h
        cases h
        intro c hc
        rcases List.mem_cons.mp hc with rfl | hc
        · exact ⟨a, List.mem_cons_self _ _, ha⟩
        · obtain ⟨x, hx, hfx⟩ := ih hr c hc
          exact ⟨x, List.mem_cons_of_mem _ hx, hfx⟩

theorem readIndexList_ok {cp : Int × Option (Nat → Nat)} {l : List Nat}
    (h : readIndexList cp = .ok l) :
    0 ≤ cp.1 ∧ cp.1 % 3 = 0 ∧ l.length = cp.1.toNat := by
  rw [readIndexList] at h
  by_cases hc : cp.1 < 0 ∨ cp.1 % 3 ≠ 0
  · rw [if_pos hc] at h; exact absurd h (by simp)
  · rw [if_neg hc] at h
    push_neg at hc
    cases hp : cp.2 with
    | none => rw [hp] at h; exact absurd h (by simp)
    | some g =>
      rw [hp] at h
      cases h
      exact ⟨by omega, hc.2, by simp⟩

theorem lookupAssoc_mem {m : List (String × Nat)} {k : String} {v : Nat}
    (h : lookupAssoc m k = some v) : (k, v) ∈ m := by
  induction m with
  | nil => simp [lookupAssoc] at h
  | cons p rest ih =>
    obtain ⟨q, w⟩ := p
    rw [lookupAssoc] at h
    by_cases hq : q = k
    · rw [if_pos hq] at h
      cases h
      simp [hq]
    · rw [if_neg hq] at h
      exact List.mem_cons_of_mem _ (ih h)

theorem lookupAssoc_insertReplace (m : List (String × Nat)) (k : String) (v : Nat) (q : String) :
    lookupAssoc (insertReplace m k v) q =
      if k = q then some v else lookupAssoc m q := by
  induction m with
  | nil =>
    by_cases hk : k = q <;> simp [insertReplace, lookupAssoc, hk]
  | cons p rest ih =>
    obtain ⟨r, w⟩ := p
    by_cases hr : r = k
    · subst hr
      by_cases hk : r = q <;> simp [insertReplace, lookupAssoc, hk]
    · rw [insertReplace, if_neg hr, lookupAssoc]
      by_cases hq : r = q
      · rw [if_pos hq, if_neg (fun hkq : k = q => hr (hq.trans hkq.symm)), lookupAssoc, if_pos hq]
      · rw [if_neg hq, ih]
        by_cases hk : k = q <;> simp [hk, lookupAssoc, hq]

theorem get_ids_map_aux_lookup (ids : List String) :
    ∀ (start : Nat) (acc : List (String × Nat)) (q : String),
      lookupAssoc (get_ids_map_aux ids start acc) q =
        match lastIdxOf ids q with
        | some j => some (start + j)
        | none => lookupAssoc acc q := by
  induction ids with
  | nil => intro start acc q; rfl
  | cons s rest ih =>
    intro start acc q
    rw [get_ids_map_aux, ih, lastIdxOf]
    cases hr : lastIdxOf rest q with
    | some j => simp [Nat.add_assoc, Nat.add_comm 1 j]
    | none =>
      by_cases hs : s = q
      · simp [hs, lookupAssoc_insertReplace]
      · simp [hs, lookupAssoc_insertReplace]

theorem get_ids_map_lookup (ids : List String) (q : String) :
    lookupAssoc (get_ids_map ids) q = lastIdxOf ids q := by
  rw [get_ids_map, get_ids_map_aux_lookup]
  cases lastIdxOf ids q <;> simp [lookupAssoc]

theorem lastIdxOf_none {ids : List String} {q : String}
    (h : lastIdxOf ids q = none) : ∀ k, ids.get? k ≠ some q := by
  induction ids with
  | nil => intro k; simp
  | cons s rest ih =>
    rw [lastIdxOf] at h
    cases hr : lastIdxOf rest q with
    | some j => rw [hr] at h; exact absurd h (by simp)
    | none =>
      rw [hr] at h
      by_cases hs : s = q
      · rw [if_pos hs] at h; exact absurd h (by simp)
      · intro k
        cases k with
        | zero => simpa using fun hsq => hs hsq
        | succ k => simpa using ih hr k

theorem lastIdxOf_some {ids : List String} {q : String} {j : Nat}
    (h : lastIdxOf ids q = some j) :
    ids.get? j = some q ∧ ∀ k, ids.get? k = some q → k ≤ j := by
  induction ids generalizing j with
  | nil => simp [lastIdxOf] at h
  | cons s rest ih =>
    rw [lastIdxOf] at h
    cases hr : lastIdxOf rest q with
    | some i =>
      rw [hr] at h
      cases h
      obtain ⟨hget, hmax⟩ := ih hr
      refine ⟨by simpa using hget, ?_⟩
      intro k hk
      cases k with
      | zero => exact Nat.zero_le _
      | succ k => exact Nat.succ_le_succ (hmax k (by simpa using hk))
    | none =>
      rw [hr] at h
      by_cases hs : s = q
      · rw [if_pos hs] at h
        cases h
        refine ⟨by simpa using hs, ?_⟩
        intro k hk
        cases k with
        | zero => exact Nat.le_refl 0
        | succ k => exact absurd (by simpa using hk) (lastIdxOf_none hr k)
      · rw [if_neg hs] at h
        exact absurd h (by simp)

theorem insertReplace_mem {m : List (String × Nat)} {k : String} {v : Nat} :
    ∀ p ∈ insertReplace m k v, p ∈ m ∨ p = (k, v) := by
  induction m with
  | nil => intro p hp; right; simpa [insertReplace] using hp
  | cons e rest ih =>
    obtain ⟨q, w⟩ := e
    intro p hp
    by_cases hq : q = k
    · rw [insertReplace, if_pos hq] at hp
      rcases List.mem_cons.mp hp with rfl | hp
      · right; rfl
      · left; exact List.mem_cons_of_mem _ hp
    · rw [insertReplace, if_neg hq] at hp
      rcases List.mem_cons.mp hp with rfl | hp
      · left; exact List.mem_cons_self _ _
      · rcases ih p hp with hm | he
        · left; exact List.mem_cons_of_mem _ hm
        · right; exact he

theorem get_ids_map_aux_mem (ids : List String) :
    ∀ (start : Nat) (acc : List (String × Nat)) (p : String × Nat),
      p ∈ get_ids_map_aux ids start acc →
      p ∈ acc ∨ ∃ j, ids.get? j = some p.1 ∧ p.2 = start + j := by
  induction ids with
  | nil => intro start acc p hp; left; exact hp
  | cons s rest ih =>
    intro start acc p hp
    rw [get_ids_map_aux] at hp
    rcases ih (start + 1) (insertReplace acc s start) p hp with hacc | ⟨j, hj, hpj⟩
    · rcases insertReplace_mem p hacc with hm | rfl
      · left; exact hm
      · right; exact ⟨0, by simp, by simp⟩
    · right
      exact ⟨j + 1, by simpa using hj, by omega⟩

theorem get_ids_map_sound (ids : List String) : MapSound (get_ids_map ids) ids := by
  intro p hp
  rcases get_ids_map_aux_mem ids 0 [] p hp with hacc | ⟨j, hj, hpj⟩
  · simp at hacc
  · have hj2 : ids.get? p.2 = some p.1 := by
      rw [hpj]; simpa using hj
    refine ⟨?_, hj2⟩
    rcases List.get?_eq_some.mp hj2 with ⟨hlt, -⟩
    exact hlt

theorem staticData_new_ok {m : RawModel} {sd : StaticData}
    (h : StaticData.new m = .ok sd) :
    ∃ pc qc dc,
      check_count m.parameterCount = some pc ∧
      check_count m.partCount = some qc ∧
      check_count m.drawableCount = some dc ∧
      get_ids m.parameterIds pc = some sd.parameterIds ∧
      sd.parameterIdsMap = get_ids_map sd.parameterIds ∧
      readSlice m.parameterMinValues pc = some sd.parameterMinValues ∧
      readSlice m.parameterMaxValues pc = some sd.parameterMaxValues ∧
      readSlice m.parameterDefaultValues pc = some sd.parameterDefaultValues ∧
      get_ids m.partIds qc = some sd.partIds ∧
      sd.partIdsMap = get_ids_map sd.partIds ∧
      (∃ raws, readSlice m.partParentIndices qc = some raws ∧
        exceptMapM PartParent.new raws = .ok sd.partParentIndices) ∧
      get_ids m.drawableIds dc = some sd.drawableIds ∧
      sd.drawableIdsMap = get_ids_map sd.drawableIds ∧
      (∃ fb, readSlice m.drawableConstantFlags dc = some fb ∧
        exceptMapM (fun f => okOr (ConstantFlags.from_bits f) (.InvalidFlags "constant" f)) fb =
          .ok sd.drawableConstantFlags) ∧
      readSlice m.drawableTextureIndices dc = some sd.drawableTextureIndices ∧
      (∃ mc mp, readSlice m.drawableMaskCounts dc = some mc ∧
        readSlice m.drawableMasks dc = some mp ∧
        exceptMapM readMask (mc.zip mp) = .ok sd.drawableMarks) ∧
      (∃ vc, readSlice m.drawableVertexCounts dc = some vc ∧
        collectOption (vc.map check_count) = some sd.drawableVertexCounts) ∧
      (∃ uv, readSlice m.drawableVertexUvs dc = some uv ∧
        exceptMapM readUvs (sd.drawableVertexCounts.zip uv) = .ok sd.drawableVertexUvs) ∧
      (∃ ic ip, readSlice m.drawableIndexCounts dc = some ic ∧
        readSlice m.drawableIndices dc = some ip ∧
        exceptMapM readIndexList (ic.zip ip) = .ok sd.drawableIndices) := by
  rw [StaticData.new] at h
  obtain ⟨pc, h1, h⟩ := exceptBind_ok h
  obtain ⟨qc, h2, h⟩ := exceptBind_ok h
  obtain ⟨dc, h3, h⟩ := exceptBind_ok h
  obtain ⟨pids, h4, h⟩ := exceptBind_ok h
  obtain ⟨pmin, h5, h⟩ := exceptBind_ok h
  obtain ⟨pmax, h6, h⟩ := exceptBind_ok h
  obtain ⟨pdef, h7, h⟩ := exceptBind_ok h
  obtain ⟨qids, h8, h⟩ := exceptBind_ok h
  obtain ⟨praw, h9, h⟩ := exceptBind_ok h
  obtain ⟨pparents, h10, h⟩ := exceptBind_ok h
  obtain ⟨dids, h11, h⟩ := exceptBind_ok h
  obtain ⟨fb, h12, h⟩ := exceptBind_ok h
  obtain ⟨cflags, h13, h⟩ := exceptBind_ok h
  obtain ⟨tex, h14, h⟩ := exceptBind_ok h
  obtain ⟨mc, h15, h⟩ := exceptBind_ok h
  obtain ⟨mp, h16, h⟩ := exceptBind_ok h
  obtain ⟨marks, h17, h⟩ := exceptBind_ok h
  obtain ⟨vcr, h18, h⟩ := exceptBind_ok h
  obtain ⟨vcs, h19, h⟩ := exceptBind_ok h
  obtain ⟨uv, h20, h⟩ := exceptBind_ok h
  obtain ⟨uvs, h21, h⟩ := exceptBind_ok h
  obtain ⟨ic, h22, h⟩ := exceptBind_ok h
  obtain ⟨ip, h23, h⟩ := exceptBind_ok h
  obtain ⟨inds, h24, h⟩ := exceptBind_ok h
  injection h with h
  subst h
  exact ⟨pc, qc, dc, okOr_eq_ok.mp h1, okOr_eq_ok.mp h2, okOr_eq_ok.mp h3,
    okOr_eq_ok.mp h4, rfl, okOr_eq_ok.mp h5, okOr_eq_ok.mp h6, okOr_eq_ok.mp h7,
    okOr_eq_ok.mp h8, rfl, ⟨praw, okOr_eq_ok.mp h9, h10⟩, okOr_eq_ok.mp h11, rfl,
    ⟨fb, okOr_eq_ok.mp h12, h13⟩, okOr_eq_ok.mp h14,
    ⟨mc, mp, okOr_eq_ok.mp h15, okOr_eq_ok.mp h16, h17⟩,
    ⟨vcr, okOr_eq_ok.mp h18, okOr_eq_ok.mp h19⟩,
    ⟨uv, okOr_eq_ok.mp h20, h21⟩,
    ⟨ic, ip, okOr_eq_ok.mp h22, okOr_eq_ok.mp h23, h24⟩⟩

theorem mutableData_new_ok {m : RawModel} {pc qc : Nat} {md : MutableData}
    (h : MutableData.new m pc qc = .ok md) :
    readSlice m.parameterValues pc = some md.parameterValues ∧
    readSlice m.partOpacities qc = some md.partOpacities := by
  rw [MutableData.new] at h
  obtain ⟨pv, h1, h⟩ := exceptBind_ok h
  obtain ⟨po, h2, h⟩ := exceptBind_ok h
  injection h with h
  subst h
  exact ⟨okOr_eq_ok.mp h1, okOr_eq_ok.mp h2⟩

theorem model_new_ok {eng : ModelEngine} {m : Model}
    (h : Model.new eng = .ok m) :
    eng.initializeModelInPlace eng.sizeofModel = some m.raw ∧
    StaticData.new m.raw = .ok m.staticData ∧
    MutableData.new m.raw m.staticData.parameterIds.length m.staticData.partIds.length =
      .ok m.mutData := by
  rw [Model.new] at h
  obtain ⟨raw, h1, h⟩ := exceptBind_ok h
  obtain ⟨sd, h2, h⟩ := exceptBind_ok h
  obtain ⟨md, h3, h⟩ := exceptBind_ok h
  injection h with h
  subst h
  exact ⟨okOr_eq_ok.mp h1, h2, h3⟩

/-- Claim C10: for every successfully constructed model instance and
every domain, every index stored in the identifier→index map is strictly
below that domain's element count and the identifier list at that index
equals the map key; together with the parallel-array length equalities of
`Model.Invariant`, every identifier-based accessor that consults a map
(`set_parameter_value`, `set_part_opacity`, `static_parameter`,
`static_part`, `static_drawable`, `dynamic_drawable`) fetches elements
only at in-bounds positions. -/
theorem c10_map_lookup_in_bounds (eng : ModelEngine) (m : Model)
    (h : Model.new eng = .ok m) :
    m.Invariant ∧
    (∀ id i, m.get_parameter_id_index id = some i →
      i < m.parameter_count ∧ m.staticData.parameterIds.get? i = some id) ∧
    (∀ id i, m.get_part_id_index id = some i →
      i < m.part_count ∧ m.staticData.partIds.get? i = some id) ∧
    (∀ id i, m.get_drawable_id_index id = some i →
      i < m.drawable_count ∧ m.staticData.drawableIds.get? i = some id) := by
  obtain ⟨hinit, hsd, hmd⟩ := model_new_ok h
  obtain ⟨pc, qc, dc, h1, h2, h3, h4, hpmap, h5, h6, h7, h8, hqmap,
    ⟨praw, h9, h10⟩, h11, hdmap, ⟨fb, h12, h13⟩, h14,
    ⟨mc, mp, h15, h16, h17⟩, ⟨vcr, h18, h19⟩, ⟨uv, h20, h21⟩,
    ⟨ic, ip, h22, h23, h24⟩⟩ := staticData_new_ok hsd
  obtain ⟨hpv, hpo⟩ := mutableData_new_ok hmd
  have hpl : m.staticData.parameterIds.length = pc := get_ids_length h4
  have hql : m.staticData.partIds.length = qc := get_ids_length h8
  have hdl : m.staticData.drawableIds.length = dc := get_ids_length h11
  have hvclen : m.staticData.drawableVertexCounts.length = dc := by
    have hlen := collectOption_length h19
    rw [List.length_map, readSlice_length h18] at hlen
    exact hlen
  refine ⟨⟨?_, ?_, ?_, ?_, ?_, ?_, ?_, ?_, ?_, ?_, ?_, ?_, ?_, ?_, ?_⟩, ?_, ?_, ?_⟩
  · rw [hpmap]; exact get_ids_map_sound _
  · rw [hqmap]; exact get_ids_map_sound _
  · rw [hdmap]; exact get_ids_map_sound _
  · exact (readSlice_length h5).trans hpl.symm
  · exact (readSlice_length h6).trans hpl.symm
  · exact (readSlice_length h7).trans hpl.symm
  · exact readSlice_length hpv
  · exact (exceptMapM_length h10).trans ((readSlice_length h9).trans hql.symm)
  · exact readSlice_length hpo
  · exact (exceptMapM_length h13).trans ((readSlice_length h12).trans hdl.symm)
  · exact (readSlice_length h14).trans hdl.symm
  · have hlen := exceptMapM_length h17
    rw [List.length_zip, readSlice_length h15, readSlice_length h16, Nat.min_self] at hlen
    exact hlen.trans hdl.symm
  · exact hvclen.trans hdl.symm
  · have hlen := exceptMapM_length h21
    rw [List.length_zip, hvclen, readSlice_length h20, Nat.min_self] at hlen
    exact hlen.trans hdl.symm
  · have hlen := exceptMapM_length h24
    rw [List.length_zip, readSlice_length h22, readSlice_length h23, Nat.min_self] at hlen
    exact hlen.trans hdl.symm
  · intro id i hlook
    rw [Model.get_parameter_id_index, hpmap] at hlook
    exact get_ids_map_sound _ _ (lookupAssoc_mem hlook)
  · intro id i hlook
    rw [Model.get_part_id_index, hqmap] at hlook
    exact get_ids_map_sound _ _ (lookupAssoc_mem hlook)
  · intro id i hlook
    rw [Model.get_drawable_id_index, hdmap] at hlook
    exact get_ids_map_sound _ _ (lookupAssoc_mem hlook)

/-- Witness for C10 at a concrete engine: the constructed instance
satisfies the invariant, and the lookup of parameter `"a"` is in
bounds. -/
theorem c10_witness :
    mW10.Invariant ∧
    (0 < mW10.parameter_count ∧ mW10.staticData.parameterIds.get? 0 = some "a") :=
  ⟨(c10_map_lookup_in_bounds engW10 mW10 rfl).1,
   (c10_map_lookup_in_bounds engW10 mW10 rfl).2.1 "a" 0 rfl⟩

/-- Counterexample to Claim C3: for the duplicated id list `["a", "a"]`
the map built by `get_ids_map` (the enumerate-and-collect `HashMap`
construction) yields index 1 — the last occurrence — not the smallest
index 0 the claim demands. -/
theorem c3_counterexample :
    lookupAssoc (get_ids_map ["a", "a"]) "a" = some 1 ∧
    lookupAssoc (get_ids_map ["a", "a"]) "a" ≠ some 0 := by
  decide

/-- Claim C3 (amended): the identifier→index map assigns each duplicated
identifier the index of its last occurrence (`HashMap::insert` during
collection overwrites the earlier binding), so looking `id` up yields
the largest index `i` with `ids[i] = id`. -/
theorem c3_last_occurrence_wins (ids : List String) (q : String) (i : Nat) :
    lookupAssoc (get_ids_map ids) q = some i ↔
      (ids.get? i = some q ∧ ∀ j, ids.get? j = some q → j ≤ i) := by
  rw [get_ids_map_lookup]
  constructor
  · intro h
    exact lastIdxOf_some h
  · rintro ⟨hget, hmax⟩
    cases hl : lastIdxOf ids q with
    | none => exact absurd hget (lastIdxOf_none hl i)
    | some j =>
      obtain ⟨hjget, hjmax⟩ := lastIdxOf_some hl
      have h1 : j ≤ i := hmax j hjget
      have h2 : i ≤ j := hjmax i hget
      rw [Nat.le_antisymm h1 h2]

/-- Witness for the amended C3: in `["a", "b", "a"]` the id `"a"` maps
to its last occurrence, index 2. -/
theorem c3_witness : lookupAssoc (get_ids_map ["a", "b", "a"]) "a" = some 2 :=
  (c3_last_occurrence_wins ["a", "b", "a"] "a" 2).mpr
    ⟨by decide, by
      intro j hj
      by_contra hlt
      push_neg at hlt
      rw [List.get?_eq_none.mpr
        (by simp only [List.length_cons, List.length_nil]; omega :
          (["a", "b", "a"] : List String).length ≤ j)] at hj
      exact Option.noConfusion hj⟩

/-- Counterexample to Claim C4: a model with exactly one part whose raw
parent index is 5 extracts successfully — the facet holds `Parent 5`,
which is neither the root marker nor an index below the part count 1.
No upper-bound check against the part count exists. -/
theorem c4_counterexample :
    modelStatic (Model.new eng4) = some sd4 ∧
    sd4.partIds.length = 1 ∧
    sd4.partParentIndices = [PartParent.Parent 5] ∧
    ¬ (PartParent.Parent 5 = PartParent.Root ∨ 5 < sd4.partIds.length) :=
  ⟨rfl, rfl, rfl, by decide⟩

/-- Claim C4 (amended): every element of the part parent-index facet is
either the root marker (raw value `-1`) or a parent index holding the
raw non-negative value unchanged; extraction rejects exactly the raw
values below `-1` and performs no comparison against the part count. -/
theorem c4_part_parent_validation :
    (∀ r : Int, r < -1 → PartParent.new r = .error (.InvalidDataCount "part parent")) ∧
    PartParent.new (-1) = .ok .Root ∧
    (∀ r : Int, 0 ≤ r → PartParent.new r = .ok (.Parent r.toNat)) ∧
    (∀ (raws : List Int) (ps : List PartParent),
      exceptMapM PartParent.new raws = .ok ps →
      (∀ r ∈ raws, -1 ≤ r) ∧
      ps = raws.map (fun r => if r = -1 then PartParent.Root else PartParent.Parent r.toNat)) := by
  refine ⟨?_, rfl, ?_, ?_⟩
  · intro r h1
    rw [PartParent.new, if_pos h1]
  · intro r h0
    rw [PartParent.new, if_neg (by omega), if_neg (by omega)]
  · intro raws
    induction raws with
    | nil =>
      intro ps h
      rw [exceptMapM] at h
      cases h
      exact ⟨by simp, rfl⟩
    | cons r rest ih =>
      intro ps h
      rw [exceptMapM] at h
      cases hr : PartParent.new r with
      | error e => rw [hr] at h; exact absurd h (by simp)
      | ok b =>
        rw [hr] at h
        cases hrest : exceptMapM PartParent.new rest with
        | error e => rw [hrest] at h; exact absurd h (by simp)
        | ok bs =>
          rw [hrest] at h
          cases h
          obtain ⟨hmem, hmap⟩ := ih bs hrest
          rw [PartParent.new] at hr
          by_cases h1 : r < -1
          · rw [if_pos h1] at hr
            exact absurd hr (by simp)
          · rw [if_neg h1] at hr
            by_cases h2 : r = -1
            · rw [if_pos h2] at hr
              injection hr with hr
              refine ⟨?_, ?_⟩
              · intro x hx
                rcases List.mem_cons.mp hx with rfl | hx
                · omega
                · exact hmem x hx
              · rw [List.map_cons, ← hmap, ← hr, if_pos h2]
            · rw [if_neg h2] at hr
              injection hr with hr
              refine ⟨?_, ?_⟩
              · intro x hx
                rcases List.mem_cons.mp hx with rfl | hx
                · omega
                · exact hmem x hx
              · rw [List.map_cons, ← hmap, ← hr, if_neg h2]

/-- Witness for the amended C4 at concrete raw values. -/
theorem c4_witness :
    PartParent.new (-2) = .error (.InvalidDataCount "part parent") ∧
    PartParent.new 5 = .ok (.Parent 5) ∧
    [PartParent.Root, PartParent.Parent 5] =
      [(-1 : Int), 5].map
        (fun r => if r = -1 then PartParent.Root else PartParent.Parent r.toNat) :=
  ⟨c4_part_parent_validation.1 (-2) (by decide),
   c4_part_parent_validation.2.2.1 5 (by decide),
   (c4_part_parent_validation.2.2.2 [-1, 5] [PartParent.Root, PartParent.Parent 5] (by decide)).2⟩

/-- Claim C9: a declared triangle-index count that is negative or not a
multiple of 3 makes the per-drawable extractor fail with the
triangle-index invariant error, and instance construction fails as a
whole (shown end-to-end on an engine declaring count 4); a non-null list
with count 0 or a multiple of 3 is accepted in full (the read returns
exactly `count` elements, no truncation), and every successfully
extracted instance has only index lists whose lengths are multiples
of 3. -/
theorem c9_triangle_index_validation :
    (∀ cp : Int × Option (Nat → Nat), (cp.1 < 0 ∨ cp.1 % 3 ≠ 0) →
      readIndexList cp = .error (.InvalidDataCount "drawable indices")) ∧
    (∀ (c : Int) (g : Nat → Nat), 0 ≤ c → c % 3 = 0 →
      readIndexList (c, some g) = .ok ((List.range c.toNat).map g)) ∧
    (∀ (m : RawModel) (sd : StaticData), StaticData.new m = .ok sd →
      ∀ l ∈ sd.drawableIndices, l.length % 3 = 0) ∧
    Model.new eng9 = .error (.InvalidDataCount "drawable indices") := by
  refine ⟨?_, ?_, ?_, rfl⟩
  · intro cp hbad
    rw [readIndexList, if_pos hbad]
  · intro c g h0 h3
    rw [readIndexList, if_neg (by omega)]
  · intro m sd h l hl
    obtain ⟨pc, qc, dc, h1, h2, h3, h4, hpmap, h5, h6, h7, h8, hqmap,
      ⟨praw, h9, h10⟩, h11, hdmap, ⟨fb, h12, h13⟩, h14,
      ⟨mc2, mp2, h15, h16, h17⟩, ⟨vcr, h18, h19⟩, ⟨uv, h20, h21⟩,
      ⟨ic, ip, h22, h23, h24⟩⟩ := staticData_new_ok h
    obtain ⟨cp, hcp, hok⟩ := exceptMapM_mem_ok h24 l hl
    obtain ⟨hge, hmod, hlen⟩ := readIndexList_ok hok
    omega

/-- Witness for C9 at concrete counts: 4 is rejected, 6 and 0 are
accepted in full, and a successfully extracted index list has length a
multiple of 3. -/
theorem c9_witness :
    readIndexList ((4 : Int), some (fun _ => 0)) =
      .error (.InvalidDataCount "drawable indices") ∧
    readIndexList ((6 : Int), some (fun _ => 0)) =
      .ok ((List.range (6 : Int).toNat).map (fun _ => 0)) ∧
    readIndexList ((0 : Int), some (fun _ => 0)) =
      .ok ((List.range (0 : Int).toNat).map (fun _ => 0)) ∧
    ([] : List Nat).length % 3 = 0 :=
  ⟨c9_triangle_index_validation.1 (4, some (fun _ => 0)) (by decide),
   c9_triangle_index_validation.2.1 6 (fun _ => 0) (by decide) (by decide),
   c9_triangle_index_validation.2.1 0 (fun _ => 0) (by decide) (by decide),
   c9_triangle_index_validation.2.2.1 rawC1 sdD1 rfl [] (by decide)⟩

/-- Counterexample to Claim C2: an engine reporting an instance-buffer
size of zero whose in-place initialize nevertheless returns non-null:
`Model::new` succeeds — there is no zero-size check, construction
proceeds to initialize and extract facets. -/
theorem c2_counterexample :
    engZeroSize.sizeofModel = 0 ∧
    exceptIsOk (Model.new engZeroSize) = true ∧
    Model.new engZeroSize ≠ .error .InitializeModelError :=
  ⟨rfl, rfl, fun h => absurd (congrArg exceptIsOk h) (by decide)⟩

theorem okOr_eq_error {o : Option α} {e f : Error}
    (h : okOr o e = .error f) : f = e := by
  cases o with
  | none => exact (Except.error.inj h).symm
  | some a => exact absurd h (by simp [okOr])

theorem exceptBind_error {x : Except Error α} {f : α → Except Error β} {e : Error}
    (h : (x >>= f) = .error e) : x = .error e ∨ ∃ a, x = .ok a ∧ f a = .error e := by
  cases x with
  | error e2 =>
    left
    simpa [Bind.bind, Except.bind] using h
  | ok a => right; exact ⟨a, rfl, h⟩

theorem exceptMapM_error {f : α → Except Error β} {l : List α} {e : Error}
    (h : exceptMapM f l = .error e) : ∃ a ∈ l, f a = .error e := by
  induction l with
  | nil => rw [exceptMapM] at h; exact absurd h (by simp)
  | cons a rest ih =>
    rw [exceptMapM] at h
    cases ha : f a with
    | error e2 =>
      rw [ha] at h
      injection h with h
      exact ⟨a, List.mem_cons_self _ _, by rw [ha, h]⟩
    | ok b =>
      rw [ha] at h
      cases hr : exceptMapM f rest with
      | error e2 =>
        rw [hr] at h
        injection h with h
        obtain ⟨x, hx, hfx⟩ := ih (by rw [hr, h])
        exact ⟨x, List.mem_cons_of_mem _ hx, hfx⟩
      | ok bs =>
        rw [hr] at h
        exact absurd h (by simp)

theorem partParent_new_error {r : Int} {e : Error}
    (h : PartParent.new r = .error e) : e = .InvalidDataCount "part parent" := by
  rw [PartParent.new] at h
  split_ifs at h
  exact (Except.error.inj h).symm

theorem readMask_ne_init (cp : Int × Option (Nat → Int)) :
    readMask cp ≠ .error .InitializeModelError := by
  intro h
  rw [readMask] at h
  split_ifs at h
  · exact Error.noConfusion (Except.error.inj h)
  · cases hp : cp.2 with
    | none => rw [hp] at h; exact Error.noConfusion (Except.error.inj h)
    | some g => rw [hp] at h; exact Except.noConfusion h

theorem readUvs_ne_init (cp : Nat × Option (Nat → Vector2)) :
    readUvs cp ≠ .error .InitializeModelError := by
  intro h
  rw [readUvs] at h
  cases hp : cp.2 with
  | none => rw [hp] at h; exact Error.noConfusion (Except.error.inj h)
  | some g => rw [hp] at h; exact Except.noConfusion h

theorem readIndexList_ne_init (cp : Int × Option (Nat → Nat)) :
    readIndexList cp ≠ .error .InitializeModelError := by
  intro h
  rw [readIndexList] at h
  split_ifs at h
  · exact Error.noConfusion (Except.error.inj h)
  · cases hp : cp.2 with
    | none => rw [hp] at h; exact Error.noConfusion (Except.error.inj h)
    | some g => rw [hp] at h; exact Except.noConfusion h

theorem staticData_new_ne_init (m : RawModel) :
    StaticData.new m ≠ .error .InitializeModelError := by
  intro h
  rw [StaticData.new] at h
  rcases exceptBind_error h with h | ⟨pc, -, h⟩
  · exact Error.noConfusion (okOr_eq_error h)
  rcases exceptBind_error h with h | ⟨qc, -, h⟩
  · exact Error.noConfusion (okOr_eq_error h)
  rcases exceptBind_error h with h | ⟨dc, -, h⟩
  · exact Error.noConfusion (okOr_eq_error h)
  rcases exceptBind_error h with h | ⟨pids, -, h⟩
  · exact Error.noConfusion (okOr_eq_error h)
  rcases exceptBind_error h with h | ⟨pmin, -, h⟩
  · exact Error.noConfusion (okOr_eq_error h)
  rcases exceptBind_error h with h | ⟨pmax, -, h⟩
  · exact Error.noConfusion (okOr_eq_error h)
  rcases exceptBind_error h with h | ⟨pdef, -, h⟩
  · exact Error.noConfusion (okOr_eq_error h)
  rcases exceptBind_error h with h | ⟨qids, -, h⟩
  · exact Error.noConfusion (okOr_eq_error h)
  rcases exceptBind_error h with h | ⟨praw, -, h⟩
  · exact Error.noConfusion (okOr_eq_error h)
  rcases exceptBind_error h with h | ⟨pparents, -, h⟩
  · obtain ⟨a, -, ha⟩ := exceptMapM_error h
    exact Error.noConfusion (partParent_new_error ha)
  rcases exceptBind_error h with h | ⟨dids, -, h⟩
  · exact Error.noConfusion (okOr_eq_error h)
  rcases exceptBind_error h with h | ⟨fb, -, h⟩
  · exact Error.noConfusion (okOr_eq_error h)
  rcases exceptBind_error h with h | ⟨cflags, -, h⟩
  · obtain ⟨a, -, ha⟩ := exceptMapM_error h
    exact Error.noConfusion (okOr_eq_error ha)
  rcases exceptBind_error h with h | ⟨tex, -, h⟩
  · exact Error.noConfusion (okOr_eq_error h)
  rcases exceptBind_error h with h | ⟨mc, -, h⟩
  · exact Error.noConfusion (okOr_eq_error h)
  rcases exceptBind_error h with h | ⟨mp, -, h⟩
  · exact Error.noConfusion (okOr_eq_error h)
  rcases exceptBind_error h with h | ⟨marks, -, h⟩
  · obtain ⟨a, -, ha⟩ := exceptMapM_error h
    exact absurd ha (readMask_ne_init a)
  rcases exceptBind_error h with h | ⟨vcr, -, h⟩
  · exact Error.noConfusion (okOr_eq_error h)
  rcases exceptBind_error h with h | ⟨vcs, -, h⟩
  · exact Error.noConfusion (okOr_eq_error h)
  rcases exceptBind_error h with h | ⟨uv, -, h⟩
  · exact Error.noConfusion (okOr_eq_error h)
  rcases exceptBind_error h with h | ⟨uvs, -, h⟩
  · obtain ⟨a, -, ha⟩ := exceptMapM_error h
    exact absurd ha (readUvs_ne_init a)
  rcases exceptBind_error h with h | ⟨ic, -, h⟩
  · exact Error.noConfusion (okOr_eq_error h)
  rcases exceptBind_error h with h | ⟨ip, -, h⟩
  · exact Error.noConfusion (okOr_eq_error h)
  rcases exceptBind_error h with h | ⟨inds, -, h⟩
  · obtain ⟨a, -, ha⟩ := exceptMapM_error h
    exact absurd ha (readIndexList_ne_init a)
  exact Except.noConfusion h

theorem mutableData_new_ne_init (m : RawModel) (pc qc : Nat) :
    MutableData.new m pc qc ≠ .error .InitializeModelError := by
  intro h
  rw [MutableData.new] at h
  rcases exceptBind_error h with h | ⟨pv, -, h⟩
  · exact Error.noConfusion (okOr_eq_error h)
  rcases exceptBind_error h with h | ⟨po, -, h⟩
  · exact Error.noConfusion (okOr_eq_error h)
  exact Except.noConfusion h

/-- Claim C2 (amended): `Model::new` fails with the
initialization-failure error exactly if the engine's in-place initialize
returns null — the reported instance-buffer size is passed through to
the initialize call without being checked for zero, and no other stage
of construction can produce this error. -/
theorem c2_init_null_failure (eng : ModelEngine) :
    Model.new eng = .error .InitializeModelError ↔
      eng.initializeModelInPlace eng.sizeofModel = none := by
  constructor
  · intro h
    rw [Model.new] at h
    rcases exceptBind_error h with h | ⟨raw, -, h⟩
    · rw [init_model] at h
      cases hi : eng.initializeModelInPlace eng.sizeofModel with
      | none => rfl
      | some r => rw [hi] at h; exact absurd h (by simp [okOr])
    · rcases exceptBind_error h with h | ⟨sd, -, h⟩
      · exact absurd h (staticData_new_ne_init raw)
      · rcases exceptBind_error h with h | ⟨md, -, h⟩
        · exact absurd h (mutableData_new_ne_init raw _ _)
        · exact Except.noConfusion h
  · intro h
    rw [Model.new, init_model, h]
    rfl

/-- Witness for the amended C2: an engine whose initialize reports
failure (null), and no other; the equivalence is exercised in both
directions. -/
theorem c2_witness :
    Model.new engInitFail = .error .InitializeModelError ∧
    engInitFail.initializeModelInPlace engInitFail.sizeofModel = none :=
  ⟨(c2_init_null_failure engInitFail).mpr rfl,
   (c2_init_null_failure engInitFail).mp ((c2_init_null_failure engInitFail).mpr rfl)⟩

/-- Counterexample to Claim C8: a drawable-opacity read over the engine
values `0 - 1e-4`, `1 + 1e-4`, `0 - 2e-4` and `1 + 2e-4` succeeds and
returns all four values — the read rejects nothing; the claimed
`[0 - 1e-4, 1 + 1e-4]` range check does not exist in the code. -/
theorem c8_counterexample :
    mC8.drawable_opacities = .ok opacityProbe ∧
    opacityProbe.getD 2 0 = 0 - 2/10000 ∧
    opacityProbe.getD 3 0 = 1 + 2/10000 :=
  ⟨rfl, rfl, rfl⟩

/-- Claim C8 (amended): drawable opacities are not range-checked on
read: `drawable_opacities` returns exactly the engine-exposed values,
whatever they are, and fails only when the engine returns a null
pointer. -/
theorem c8_no_opacity_range_check (m : Model) :
    (∀ f, m.raw.drawableOpacities = some f →
      m.drawable_opacities = .ok ((List.range m.drawable_count).map f)) ∧
    (m.raw.drawableOpacities = none →
      m.drawable_opacities = .error (.GetDataError "drawable opacities")) := by
  constructor
  · intro f hf
    rw [Model.drawable_opacities, readSlice, hf]
    rfl
  · intro hf
    rw [Model.drawable_opacities, readSlice, hf]
    rfl

/-- Witness for the amended C8: a null opacity pointer fails the read
with the data error. -/
theorem c8_witness :
    mC8null.drawable_opacities = .error (.GetDataError "drawable opacities") :=
  (c8_no_opacity_range_check mC8null).2 rfl

/-- Claim C7: for a well-formed model, setting a known parameter id
returns the previous value at the mapped index, and reading the value at
that index afterwards yields exactly the written value — no clamping;
setting by an unknown identifier returns `None` and leaves the model, in
particular every parameter value, unchanged. -/
theorem c7_set_parameter_round_trip (m : Model) (id : String) (v : F32)
    (hInv : m.Invariant) :
    (∀ i, m.get_parameter_id_index id = some i →
      i < m.parameter_values.length ∧
      (m.set_parameter_value id v).1 = m.parameter_values.get? i ∧
      (m.set_parameter_value id v).2.parameter_values.get? i = some v ∧
      (m.set_parameter_value id v).2.staticData = m.staticData) ∧
    (m.get_parameter_id_index id = none →
      m.set_parameter_value id v = (none, m)) := by
  obtain ⟨hpm, -, -, -, -, -, hlenv, -⟩ := hInv
  constructor
  · intro i hlook
    have hmem := lookupAssoc_mem (by rw [Model.get_parameter_id_index] at hlook; exact hlook)
    have hil : i < m.parameter_values.length := by
      have := (hpm (id, i) hmem).1
      rw [Model.parameter_values, hlenv]
      exact this
    refine ⟨hil, ?_, ?_, ?_⟩
    · simp only [Model.set_parameter_value, hlook, Model.set_parameter_value_index_unchecked]
      rfl
    · simp only [Model.set_parameter_value, hlook, Model.set_parameter_value_index_unchecked,
        Model.parameter_values]
      exact List.get?_set_eq_of_lt v hil
    · simp only [Model.set_parameter_value, hlook, Model.set_parameter_value_index_unchecked]
  · intro h
    simp only [Model.set_parameter_value, h]

/-- Witness for C7: on the one-parameter model `mW7`, setting `"a"` to 2
(outside its `[0, 1]` range, showing the absence of clamping) reads back
exactly 2; setting an unknown id changes nothing. -/
theorem c7_witness :
    (0 < mW7.parameter_values.length ∧
     (mW7.set_parameter_value "a" 2).1 = mW7.parameter_values.get? 0 ∧
     (mW7.set_parameter_value "a" 2).2.parameter_values.get? 0 = some 2 ∧
     (mW7.set_parameter_value "a" 2).2.staticData = mW7.staticData) ∧
    mW7.set_parameter_value "missing" 2 = (none, mW7) :=
  ⟨(c7_set_parameter_round_trip mW7 "a" 2 (by decide)).1 0 rfl,
   (c7_set_parameter_round_trip mW7 "missing" 2 (by decide)).2 rfl⟩

/-- Claim C5: `Moc::new` fails with the too-large error exactly when the
byte length exceeds the 32-bit unsigned bound; otherwise fails with the
unsupported-version error exactly when the version derived from the
bytes exceeds the engine's latest supported version; otherwise fails
with the corrupt-asset error exactly when the engine's in-place revive
returns null; and otherwise succeeds with a handle wrapping the revived
buffer. -/
theorem c5_moc_creation_cascade (eng : MocEngine) (bytes : List Nat) :
    (Moc.new eng bytes = .error .MocDataTooLarge ↔ UINT32_MAX < bytes.length) ∧
    (Moc.new eng bytes = .error (.InvalidMocVersion (eng.getMocVersion bytes)) ↔
      bytes.length ≤ UINT32_MAX ∧
      MocVersion.ltb (MocVersion.new eng.latestMocVersion)
        (MocVersion.new (eng.getMocVersion bytes)) = true) ∧
    (Moc.new eng bytes = .error .InvalidMocData ↔
      bytes.length ≤ UINT32_MAX ∧
      MocVersion.ltb (MocVersion.new eng.latestMocVersion)
        (MocVersion.new (eng.getMocVersion bytes)) = false ∧
      eng.reviveMocInPlace bytes = none) ∧
    (∀ revived, eng.reviveMocInPlace bytes = some revived →
      bytes.length ≤ UINT32_MAX →
      MocVersion.ltb (MocVersion.new eng.latestMocVersion)
        (MocVersion.new (eng.getMocVersion bytes)) = false →
      Moc.new eng bytes = .ok ⟨revived⟩) := by
  by_cases hlen : bytes.length > UINT32_MAX
  · have hnew : Moc.new eng bytes = .error .MocDataTooLarge := by
      rw [Moc.new, if_pos hlen]
    refine ⟨iff_of_true hnew hlen, ?_, ?_, ?_⟩
    · refine iff_of_false ?_ (fun h => absurd h.1 (by omega))
      intro h
      rw [hnew] at h
      exact Error.noConfusion (Except.error.inj h)
    · refine iff_of_false ?_ (fun h => absurd h.1 (by omega))
      intro h
      rw [hnew] at h
      exact Error.noConfusion (Except.error.inj h)
    · intro revived _ h1 _
      exact absurd h1 (by omega)
  · by_cases hv : MocVersion.ltb (MocVersion.new eng.latestMocVersion)
      (MocVersion.new (eng.getMocVersion bytes)) = true
    · have hnew : Moc.new eng bytes = .error (.InvalidMocVersion (eng.getMocVersion bytes)) := by
        rw [Moc.new, if_neg hlen]
        simp only [if_pos hv]
      refine ⟨?_, iff_of_true hnew ⟨by omega, hv⟩, ?_, ?_⟩
      · refine iff_of_false ?_ (by omega)
        intro h
        rw [hnew] at h
        exact Error.noConfusion (Except.error.inj h)
      · refine iff_of_false ?_ (fun h => by rw [hv] at h; exact Bool.noConfusion h.2.1)
        intro h
        rw [hnew] at h
        exact Error.noConfusion (Except.error.inj h)
      · intro revived _ _ h2
        rw [hv] at h2
        exact Bool.noConfusion h2
    · have hvf : MocVersion.ltb (MocVersion.new eng.latestMocVersion)
          (MocVersion.new (eng.getMocVersion bytes)) = false := by
        revert hv
        cases MocVersion.ltb (MocVersion.new eng.latestMocVersion)
          (MocVersion.new (eng.getMocVersion bytes)) <;> simp
      cases hrev : eng.reviveMocInPlace bytes with
      | none =>
        have hnew : Moc.new eng bytes = .error .InvalidMocData := by
          rw [Moc.new, if_neg hlen]
          simp only [if_neg hv]
          rw [hrev]
        refine ⟨?_, ?_, iff_of_true hnew ⟨by omega, hvf, rfl⟩, ?_⟩
        · refine iff_of_false ?_ (by omega)
          intro h
          rw [hnew] at h
          exact Error.noConfusion (Except.error.inj h)
        · refine iff_of_false ?_ (fun h => by rw [h.2] at hvf; exact Bool.noConfusion hvf)
          intro h
          rw [hnew] at h
          exact Error.noConfusion (Except.error.inj h)
        · intro revived hrev2 _ _
          exact Option.noConfusion hrev2
      | some r =>
        have hnew : Moc.new eng bytes = .ok ⟨r⟩ := by
          rw [Moc.new, if_neg hlen]
          simp only [if_neg hv]
          rw [hrev]
        refine ⟨?_, ?_, ?_, ?_⟩
        · refine iff_of_false ?_ (by omega)
          intro h
          rw [hnew] at h
          exact Except.noConfusion h
        · refine iff_of_false ?_ (fun h => by rw [h.2] at hvf; exact Bool.noConfusion hvf)
          intro h
          rw [hnew] at h
          exact Except.noConfusion h
        · refine iff_of_false ?_ (fun h => Option.noConfusion h.2.2)
          intro h
          rw [hnew] at h
          exact Except.noConfusion h
        · intro revived hrev2 _ _
          injection hrev2 with hrev2
          rw [hnew, hrev2]

/-- Witness for C5: a one-byte asset with a supported version and a
successful revive yields a handle wrapping the revived buffer. -/
theorem c5_witness : Moc.new mocEngW [7] = .ok ⟨[7]⟩ :=
  (c5_moc_creation_cascade mocEngW [7]).2.2.2 [7] rfl (by decide) (by decide)

/-- Claim C6: tag codes 1/2/3 classify to versions 30/33/40, every other
code to the unknown version; unknown compares strictly above every known
version in the derived order, so an asset classifying to unknown is
rejected as unsupported whenever the engine reports a known latest
version. -/
theorem c6_format_tag_classification :
    MocVersion.new 1 = .Version30 ∧
    MocVersion.new 2 = .Version33 ∧
    MocVersion.new 3 = .Version40 ∧
    (∀ t : Nat, t ≠ 1 → t ≠ 2 → t ≠ 3 → MocVersion.new t = .VersionUnknown) ∧
    (∀ v : MocVersion, v ≠ .VersionUnknown → MocVersion.ltb v .VersionUnknown = true) ∧
    (∀ (eng : MocEngine) (bytes : List Nat),
      bytes.length ≤ UINT32_MAX →
      MocVersion.new (eng.getMocVersion bytes) = .VersionUnknown →
      MocVersion.new eng.latestMocVersion ≠ .VersionUnknown →
      Moc.new eng bytes = .error (.InvalidMocVersion (eng.getMocVersion bytes))) := by
  refine ⟨rfl, rfl, rfl, ?_, ?_, ?_⟩
  · intro t h1 h2 h3
    match t with
    | 0 => rfl
    | 1 => exact absurd rfl h1
    | 2 => exact absurd rfl h2
    | 3 => exact absurd rfl h3
    | (n + 4) => rfl
  · intro v hv
    cases v with
    | Version30 => rfl
    | Version33 => rfl
    | Version40 => rfl
    | VersionUnknown => exact absurd rfl hv
  · intro eng bytes hlen hu hl
    have hv : MocVersion.ltb (MocVersion.new eng.latestMocVersion)
        (MocVersion.new (eng.getMocVersion bytes)) = true := by
      rw [hu]
      cases hcase : MocVersion.new eng.latestMocVersion with
      | Version30 => rfl
      | Version33 => rfl
      | Version40 => rfl
      | VersionUnknown => exact absurd hcase hl
    rw [Moc.new, if_neg (show ¬ bytes.length > UINT32_MAX by omega)]
    simp only [if_pos hv]

/-- Witness for C6: tag code 9 classifies to unknown and a one-byte
asset carrying it is rejected as unsupported. -/
theorem c6_witness :
    MocVersion.new 9 = .VersionUnknown ∧
    MocVersion.ltb .Version40 .VersionUnknown = true ∧
    Moc.new mocEngU [1] = .error (.InvalidMocVersion 9) :=
  ⟨c6_format_tag_classification.2.2.2.1 9 (by decide) (by decide) (by decide),
   c6_format_tag_classification.2.2.2.2.1 .Version40 (by decide),
   c6_format_tag_classification.2.2.2.2.2 mocEngU [1] (by decide) rfl (by decide)⟩

theorem optionBind_some {x : Option α} {f : α → Option β} {b : β}
    (h : (x >>= f) = some b) : ∃ a, x = some a ∧ f a = some b := by
  cases x with
  | none => exact absurd h (by simp [Bind.bind])
  | some a => exact ⟨a, rfl, h⟩

theorem copyFromSlice_some {dst src r : List α}
    (h : copyFromSlice dst src = some r) : dst.length = src.length ∧ r = src := by
  rw [copyFromSlice] at h
  by_cases hl : dst.length = src.length
  · rw [if_pos hl] at h
    cases h
    exact ⟨hl, rfl⟩
  · rw [if_neg hl] at h
    exact absurd h (by simp)

/-- Counterexample to Claim C1: on an engine whose evaluate pass changes
drawable opacities from 0 to 1, the code's `Clone` yields a clone whose
dynamic drawable state is the freshly initialized one (opacity 0),
whereas the spec's clone-then-evaluate (`Model.cloneSpec`) yields
opacity 1 — `Clone` runs no evaluate pass. -/
theorem c1_counterexample : Model.clone engC1 mC1 ≠ Model.cloneSpec engC1 mC1 :=
  fun h => absurd (congrArg cloneObs h) (by decide)

/-- Claim C1 (amended): cloning creates a new instance from the same
asset, reuses the original's static data, and copies the original's
current parameter values and part opacities into the new instance, but
runs no evaluate pass: the clone's buffer is exactly the freshly
initialized one, so its dynamic facets are not recomputed from the
copied inputs until the caller evaluates. -/
theorem c1_clone_copies_without_evaluate (eng : ModelEngine) (m c : Model)
    (h : Model.clone eng m = some c) :
    c.staticData = m.staticData ∧
    c.mutData.parameterValues = m.mutData.parameterValues ∧
    c.mutData.partOpacities = m.mutData.partOpacities ∧
    eng.initializeModelInPlace eng.sizeofModel = some c.raw := by
  rw [Model.clone] at h
  obtain ⟨raw, h1, h⟩ := optionBind_some h
  obtain ⟨fresh, h2, h⟩ := optionBind_some h
  obtain ⟨pv, h3, h⟩ := optionBind_some h
  obtain ⟨po, h4, h⟩ := optionBind_some h
  injection h with h
  subst h
  exact ⟨rfl, (copyFromSlice_some h3).2, (copyFromSlice_some h4).2, h1⟩

/-- Witness for the amended C1: cloning `mC1` over `engC1` succeeds and
yields exactly the copied values over the freshly initialized buffer. -/
theorem c1_witness :
    mC1.staticData = mC1.staticData ∧
    mC1.mutData.parameterValues = mC1.mutData.parameterValues ∧
    mC1.mutData.partOpacities = mC1.mutData.partOpacities ∧
    engC1.initializeModelInPlace engC1.sizeofModel = some mC1.raw :=
  c1_clone_copies_without_evaluate engC1 mC1 mC1 rfl
